import Mathlib

/-!
# Verification of the `bevy_light` probe module and its light-probe resolution spec

This development embeds the data model of `src/crates/bevy_light/src/probe.rs`
(`LightProbe`, `EnvironmentMapLight`, `GeneratedEnvironmentMapLight`,
`IrradianceVolume`) together with the probe registry, the priority resolver,
the containment test and the environment-map filter trigger described in the
specification.  The component structures and their `Default` implementations
are translated directly from the Rust source.  The resolver, registry,
containment test and filter pipeline have no code under `src/` (the source
file is purely declarative data shape), so they are modelled from the spec,
each marked `Modelled from the spec:` in its doc comment.

Scalar quantities (`f32` in Rust) are modelled as exact rationals `ℚ`; all
constants appearing in the claims (`0.0`, `0.5`, `1.0`) are exactly
representable, so this is faithful for the properties proved here.
-/

/-- A 3-dimensional vector with rational coordinates, modelling `Vec3`. -/
structure Vec3 where
  x : ℚ
  y : ℚ
  z : ℚ
  deriving DecidableEq, Repr

/-- Modelled from the spec: the affine transform of a probe volume
("translation, rotation, non-uniform scale") as a general 3×3 linear part
plus a translation, mapping the canonical unit cube `[-0.5, 0.5]³` into
world space.  Missing from `src/`: only the `Transform` component reference
exists there. -/
structure Affine where
  m00 : ℚ
  m01 : ℚ
  m02 : ℚ
  m10 : ℚ
  m11 : ℚ
  m12 : ℚ
  m20 : ℚ
  m21 : ℚ
  m22 : ℚ
  tx : ℚ
  ty : ℚ
  tz : ℚ
  deriving DecidableEq, Repr

namespace Affine

/-- Determinant of the linear part of the transform. -/
def det (a : Affine) : ℚ :=
  a.m00 * (a.m11 * a.m22 - a.m12 * a.m21)
    - a.m01 * (a.m10 * a.m22 - a.m12 * a.m20)
    + a.m02 * (a.m10 * a.m21 - a.m11 * a.m20)

/-- Apply the affine transform to a point: linear part then translation. -/
def applyAffine (a : Affine) (v : Vec3) : Vec3 :=
  { x := a.m00 * v.x + a.m01 * v.y + a.m02 * v.z + a.tx
    y := a.m10 * v.x + a.m11 * v.y + a.m12 * v.z + a.ty
    z := a.m20 * v.x + a.m21 * v.y + a.m22 * v.z + a.tz }

/-- Apply the inverse of the affine transform to a world point: subtract the
translation, then multiply by the adjugate of the linear part divided by the
determinant (Cramer's rule). -/
def invApply (a : Affine) (p : Vec3) : Vec3 :=
  let dx := p.x - a.tx
  let dy := p.y - a.ty
  let dz := p.z - a.tz
  { x := ((a.m11 * a.m22 - a.m12 * a.m21) * dx
        + (a.m02 * a.m21 - a.m01 * a.m22) * dy
        + (a.m01 * a.m12 - a.m02 * a.m11) * dz) / a.det
    y := ((a.m12 * a.m20 - a.m10 * a.m22) * dx
        + (a.m00 * a.m22 - a.m02 * a.m20) * dy
        + (a.m02 * a.m10 - a.m00 * a.m12) * dz) / a.det
    z := ((a.m10 * a.m21 - a.m11 * a.m20) * dx
        + (a.m01 * a.m20 - a.m00 * a.m21) * dy
        + (a.m00 * a.m11 - a.m01 * a.m10) * dz) / a.det }

/-- The identity affine transform. -/
def ident : Affine :=
  { m00 := 1, m01 := 0, m02 := 0
    m10 := 0, m11 := 1, m12 := 0
    m20 := 0, m21 := 0, m22 := 1
    tx := 0, ty := 0, tz := 0 }

/-- A uniform scale by `s` about the origin. -/
def uniformScale (s : ℚ) : Affine :=
  { m00 := s, m01 := 0, m02 := 0
    m10 := 0, m11 := s, m12 := 0
    m20 := 0, m21 := 0, m22 := s
    tx := 0, ty := 0, tz := 0 }

/-- Modelled from the spec: `contains(worldPoint) -> bool` — transform the
world point by the volume's inverse affine transform and return true iff
every resulting coordinate lies in the closed interval `[-0.5, 0.5]`.
The function is pure (no side effects).  Missing from `src/`: the
containment test is only described in the `LightProbe` doc comment. -/
def contains (a : Affine) (p : Vec3) : Bool :=
  let q := a.invApply p
  decide (-(1 / 2 : ℚ) ≤ q.x) && decide (q.x ≤ (1 / 2 : ℚ)) &&
  decide (-(1 / 2 : ℚ) ≤ q.y) && decide (q.y ≤ (1 / 2 : ℚ)) &&
  decide (-(1 / 2 : ℚ) ≤ q.z) && decide (q.z ≤ (1 / 2 : ℚ))

/-- Cramer's rule: on an invertible transform, `invApply` is a left inverse
of `applyAffine`. -/
theorem invApply_applyAffine (a : Affine) (q : Vec3) (hdet : a.det ≠ 0) :
    a.invApply (a.applyAffine q) = q := by
  obtain ⟨qx, qy, qz⟩ := q
  simp only [invApply, applyAffine, Vec3.mk.injEq]
  refine ⟨?_, ?_, ?_⟩ <;>
    · simp only [det] at hdet ⊢
      field_simp
      ring

end Affine

/-- A unit quaternion, modelling `bevy_math::Quat` (components as exact
rationals). -/
structure Quat where
  qx : ℚ
  qy : ℚ
  qz : ℚ
  qw : ℚ
  deriving DecidableEq, Repr

/-- `Quat::IDENTITY`: the identity rotation. -/
def Quat.IDENTITY : Quat := { qx := 0, qy := 0, qz := 0, qw := 1 }

/-- An opaque asset handle, modelling `bevy_asset::Handle<Image>`: this core
holds references only.  `Handle::default()` is the default (placeholder)
handle. -/
structure Handle where
  id : Nat
  deriving DecidableEq, Repr

/-- `Handle::default()`. -/
def Handle.defaultHandle : Handle := { id := 0 }

/-- `EnvironmentMapLight` from `src/crates/bevy_light/src/probe.rs`: a pair
of cubemap textures that represent the surroundings of a specific area in
space. -/
structure EnvironmentMapLight where
  diffuse_map : Handle
  specular_map : Handle
  intensity : ℚ
  rotation : Quat
  affects_lightmapped_mesh_diffuse : Bool
  deriving DecidableEq, Repr

/-- `impl Default for EnvironmentMapLight` (probe.rs lines 99–109). -/
def EnvironmentMapLight.defaultValue : EnvironmentMapLight :=
  { diffuse_map := Handle.defaultHandle
    specular_map := Handle.defaultHandle
    intensity := 0
    rotation := Quat.IDENTITY
    affects_lightmapped_mesh_diffuse := true }

/-- `GeneratedEnvironmentMapLight` from probe.rs: a generated environment map
that is filtered at runtime; `environment_map` is the source cubemap, whose
size must be a power of two. -/
structure GeneratedEnvironmentMapLight where
  environment_map : Handle
  intensity : ℚ
  rotation : Quat
  affects_lightmapped_mesh_diffuse : Bool
  deriving DecidableEq, Repr

/-- `impl Default for GeneratedEnvironmentMapLight` (probe.rs lines 132–141). -/
def GeneratedEnvironmentMapLight.defaultValue : GeneratedEnvironmentMapLight :=
  { environment_map := Handle.defaultHandle
    intensity := 0
    rotation := Quat.IDENTITY
    affects_lightmapped_mesh_diffuse := true }

/-- `IrradianceVolume` from probe.rs: the component that defines an
irradiance volume (3D texture of ambient cubes).  It has no rotation field. -/
structure IrradianceVolume where
  voxels : Handle
  intensity : ℚ
  affects_lightmapped_meshes : Bool
  deriving DecidableEq, Repr

/-- `impl Default for IrradianceVolume` (probe.rs lines 179–188). -/
def IrradianceVolume.defaultValue : IrradianceVolume :=
  { voxels := Handle.defaultHandle
    intensity := 0
    affects_lightmapped_meshes := true }

/-- The kind tag of a probe volume: reflection probe or irradiance volume
(spec §3, "tagged-union/variant type"). -/
inductive ProbeKind where
  | reflection
  | irradiance
  deriving DecidableEq, Repr

/-- Modelled from the spec: one probe registry record — a probe volume
(transform + kind) with its associated light-data handle and the
`affectsLightmappedDiffuse` / `affectsLightmappedMeshes` suppression flag.
Missing from `src/`: the registry holding `LightProbe` entities is not in
the source file. -/
structure Probe where
  transform : Affine
  kind : ProbeKind
  lightData : Handle
  affectsLightmapped : Bool
  deriving DecidableEq, Repr

/-- The world-space volume of the probe's cuboid: the unit cube has volume 1,
so the transformed volume is the absolute determinant of the linear part
("scale magnitude" in the spec's tie-break rule). -/
def Probe.vol (p : Probe) : ℚ := |p.transform.det|

/-- Modelled from the spec: the probe registry — an immutable per-frame
snapshot of probe records indexed by stable integer ID, in registration
(insertion) order.  `nextId` is the next fresh ID.  Missing from `src/`:
the registration API is described in spec §6 only. -/
structure Registry where
  probes : List (Nat × Probe)
  nextId : Nat
  deriving DecidableEq, Repr

/-- The empty registry. -/
def Registry.empty : Registry := { probes := [], nextId := 0 }

/-- Registry well-formedness: entries carry strictly increasing IDs (stable
registration order) and every ID is below `nextId`. -/
def Registry.Wf (r : Registry) : Prop :=
  r.probes.Pairwise (fun a b => a.1 < b.1) ∧ ∀ e ∈ r.probes, e.1 < r.nextId

/-- Modelled from the spec: register (add) a probe, assigning the next
stable ID. -/
def Registry.add (r : Registry) (p : Probe) : Registry :=
  { probes := r.probes ++ [(r.nextId, p)], nextId := r.nextId + 1 }

/-- Modelled from the spec: remove the probe with the given ID. -/
def Registry.remove (r : Registry) (i : Nat) : Registry :=
  { probes := r.probes.filter (fun e => e.1 ≠ i), nextId := r.nextId }

/-- Modelled from the spec: update only the suppression flags of the
registered probes (`g` gives the new flag per probe ID); volumes, kinds and
light data are untouched.  Used to state that the specular chain ignores
these flags. -/
def Registry.mapFlags (r : Registry) (g : Nat → Bool) : Registry :=
  { probes := r.probes.map (fun e => (e.1, { e.2 with affectsLightmapped := g e.1 }))
    nextId := r.nextId }

/-- Modelled from the spec: the per-fragment input of `resolve` — the
fragment's world position, lightmap presence (and whether the lightmap
encodes specular), and view-level environment-map availability. -/
structure Fragment where
  pos : Vec3
  hasLightmap : Bool
  lightmapHasSpecular : Bool
  hasViewEnvMap : Bool
  deriving DecidableEq, Repr

/-- The outcome of one priority chain of the resolver: which source was
selected (probe sources carry the registry ID), or no source at all. -/
inductive ResolvedSource where
  | lightmap
  | irradianceVolume (i : Nat)
  | reflectionProbe (i : Nat)
  | viewEnvMap
  | noSource
  deriving DecidableEq, Repr

/-- Rank of a diffuse source in the spec's diffuse priority chain
(1 = highest priority; `noSource` ranks below everything). -/
def diffuseRank : ResolvedSource → Nat
  | .lightmap => 1
  | .irradianceVolume _ => 2
  | .reflectionProbe _ => 3
  | .viewEnvMap => 4
  | .noSource => 5

/-- Rank of a specular source in the spec's specular priority chain
(irradiance volumes do not appear in it; they are ranked below everything). -/
def specularRank : ResolvedSource → Nat
  | .lightmap => 1
  | .reflectionProbe _ => 2
  | .viewEnvMap => 3
  | .noSource => 4
  | .irradianceVolume _ => 5

/-- Modelled from the spec: a probe is active at a fragment when its
transform is invertible (`InvalidTransform` probes are treated as inactive,
spec §7), its volume contains the fragment position, and its light-data
handle is loaded (an unresolved handle is treated as absent, not an error). -/
def activeAt (loaded : Handle → Bool) (f : Fragment) (p : Probe) : Bool :=
  decide (p.transform.det ≠ 0) && Affine.contains p.transform f.pos &&
    loaded p.lightData

/-- Modelled from the spec: candidacy for the diffuse chain at kind `k` —
active at the fragment, of the right kind, and not suppressed (a candidate
with the suppression flag `false` is skipped when a lightmap is present). -/
def diffuseCandidate (loaded : Handle → Bool) (f : Fragment) (k : ProbeKind)
    (p : Probe) : Bool :=
  decide (p.kind = k) && activeAt loaded f p &&
    (p.affectsLightmapped || !f.hasLightmap)

/-- Modelled from the spec: candidacy for the specular chain — a reflection
probe active at the fragment (the suppression flag only gates diffuse). -/
def specularCandidate (loaded : Handle → Bool) (f : Fragment) (p : Probe) : Bool :=
  decide (p.kind = ProbeKind.reflection) && activeAt loaded f p

/-- One step of the tie-break fold: keep the strictly smaller-volume entry,
keeping the current (earlier-registered) one on exact ties. -/
def chooseSmaller (b y : Nat × Probe) : Nat × Probe :=
  if y.2.vol < b.2.vol then y else b

/-- Modelled from the spec: deterministic tie-break — of the candidate
entries (in registration order), keep the one of smallest bounding volume,
keeping the earlier entry when volumes are exactly equal. -/
def selectBest : List (Nat × Probe) → Option (Nat × Probe)
  | [] => none
  | e :: es => some (es.foldl chooseSmaller e)

/-- Modelled from the spec: the diffuse priority chain of `resolve`
(spec §4.2) — (1) lightmap if present, (2) best containing irradiance
volume, (3) best containing reflection probe, (4) view-level environment
map, else no source.  Total by construction: it never fails. -/
def resolveDiffuse (reg : Registry) (loaded : Handle → Bool) (f : Fragment) :
    ResolvedSource :=
  if f.hasLightmap then .lightmap
  else
    match selectBest (reg.probes.filter
        (fun e => diffuseCandidate loaded f ProbeKind.irradiance e.2)) with
    | some e => .irradianceVolume e.1
    | none =>
      match selectBest (reg.probes.filter
          (fun e => diffuseCandidate loaded f ProbeKind.reflection e.2)) with
      | some e => .reflectionProbe e.1
      | none => if f.hasViewEnvMap then .viewEnvMap else .noSource

/-- Modelled from the spec: the specular priority chain of `resolve`
(spec §4.2) — (1) lightmap only if it encodes specular, (2) best containing
reflection probe, (3) view-level environment map, else no source. -/
def resolveSpecular (reg : Registry) (loaded : Handle → Bool) (f : Fragment) :
    ResolvedSource :=
  if f.hasLightmap && f.lightmapHasSpecular then .lightmap
  else
    match selectBest (reg.probes.filter
        (fun e => specularCandidate loaded f e.2)) with
    | some e => .reflectionProbe e.1
    | none => if f.hasViewEnvMap then .viewEnvMap else .noSource

/-- Modelled from the spec: `resolve(fragment) -> {diffuseSource,
specularSource}` — the two chains evaluated independently. -/
def resolve (reg : Registry) (loaded : Handle → Bool) (f : Fragment) :
    ResolvedSource × ResolvedSource :=
  (resolveDiffuse reg loaded f, resolveSpecular reg loaded f)

/-- `chooseSmaller` returns one of its two arguments. -/
theorem chooseSmaller_cases (b y : Nat × Probe) :
    chooseSmaller b y = b ∨ chooseSmaller b y = y := by
  unfold chooseSmaller; split
  · exact Or.inr rfl
  · exact Or.inl rfl

/-- `chooseSmaller` never increases the volume relative to the left entry. -/
theorem chooseSmaller_vol_le_left (b y : Nat × Probe) :
    (chooseSmaller b y).2.vol ≤ b.2.vol := by
  unfold chooseSmaller; split
  · exact le_of_lt ‹_›
  · exact le_refl _

/-- `chooseSmaller` never exceeds the volume of the right entry. -/
theorem chooseSmaller_vol_le_right (b y : Nat × Probe) :
    (chooseSmaller b y).2.vol ≤ y.2.vol := by
  unfold chooseSmaller; split
  · exact le_refl _
  · exact le_of_not_lt ‹_›

/-- If `chooseSmaller` keeps the left entry, the left volume is no larger. -/
theorem chooseSmaller_eq_left_vol {b y : Nat × Probe}
    (h : chooseSmaller b y = b) : b.2.vol ≤ y.2.vol := by
  unfold chooseSmaller at h
  split at h
  · rw [← h]
  · exact le_of_not_lt ‹_›

/-- The tie-break fold returns an element of `b :: l`. -/
theorem foldl_choose_mem (l : List (Nat × Probe)) :
    ∀ b, l.foldl chooseSmaller b ∈ b :: l := by
  induction l with
  | nil => intro b; simp
  | cons y ys ih =>
    intro b
    rw [List.foldl_cons]
    rcases chooseSmaller_cases b y with hc | hc <;> rw [hc]
    · have h := ih b
      simp only [List.mem_cons] at h ⊢
      tauto
    · have h := ih y
      simp only [List.mem_cons] at h ⊢
      tauto

/-- The tie-break fold result has minimal volume among `b` and the list. -/
theorem foldl_choose_vol (l : List (Nat × Probe)) :
    ∀ b, (l.foldl chooseSmaller b).2.vol ≤ b.2.vol ∧
      ∀ y ∈ l, (l.foldl chooseSmaller b).2.vol ≤ y.2.vol := by
  induction l with
  | nil => intro b; simp
  | cons y ys ih =>
    intro b
    obtain ⟨h1, h2⟩ := ih (chooseSmaller b y)
    rw [List.foldl_cons]
    refine ⟨le_trans h1 (chooseSmaller_vol_le_left b y), ?_⟩
    intro z hz
    rcases List.mem_cons.mp hz with rfl | hz
    · exact le_trans h1 (chooseSmaller_vol_le_right b z)
    · exact h2 z hz

/-- With strictly increasing IDs, the tie-break fold result is the
earliest-registered entry among all entries tying its (minimal) volume. -/
theorem foldl_choose_tie (l : List (Nat × Probe)) :
    ∀ b, (b :: l).Pairwise (fun a c => a.1 < c.1) →
      ∀ y ∈ b :: l, y.2.vol = (l.foldl chooseSmaller b).2.vol →
        (l.foldl chooseSmaller b).1 ≤ y.1 := by
  induction l with
  | nil =>
    intro b _ y hy _
    rcases List.mem_singleton.mp hy with rfl
    exact le_refl _
  | cons c cs ih =>
    intro b hp y hy hvol
    rw [List.pairwise_cons] at hp
    obtain ⟨hblt, hp2⟩ := hp
    rw [List.foldl_cons] at hvol ⊢
    by_cases hcv : c.2.vol < b.2.vol
    · have hstep : chooseSmaller b c = c := by unfold chooseSmaller; rw [if_pos hcv]
      rw [hstep] at hvol ⊢
      rcases List.mem_cons.mp hy with hb | hy2
      · -- y = b: b cannot tie the result, whose volume is at most c's < b's.
        exfalso
        have hr1 : (cs.foldl chooseSmaller c).2.vol ≤ c.2.vol :=
          (foldl_choose_vol cs c).1
        rw [hb] at hvol
        exact absurd (hvol ▸ lt_of_le_of_lt hr1 hcv) (lt_irrefl _)
      · rcases List.mem_cons.mp hy2 with hcq | hy3
        · exact ih c hp2 y (by rw [hcq]; exact List.mem_cons_self _ _) hvol
        · exact ih c hp2 y (List.mem_cons_of_mem _ hy3) hvol
    · have hstep : chooseSmaller b c = b := by unfold chooseSmaller; rw [if_neg hcv]
      rw [hstep] at hvol ⊢
      have hp' : (b :: cs).Pairwise (fun a d => a.1 < d.1) :=
        List.pairwise_cons.mpr ⟨fun a ha => hblt a (List.mem_cons_of_mem c ha),
          (List.pairwise_cons.mp hp2).2⟩
      rcases List.mem_cons.mp hy with hb | hy2
      · exact ih b hp' y (by rw [hb]; exact List.mem_cons_self _ _) hvol
      · rcases List.mem_cons.mp hy2 with hcq | hy3
        · -- y = c: the result also ties b's volume, precedes b, and b
          -- precedes c in registration order.
          have hr1 : (cs.foldl chooseSmaller b).2.vol ≤ b.2.vol :=
            (foldl_choose_vol cs b).1
          have hbvol : b.2.vol = (cs.foldl chooseSmaller b).2.vol := by
            have hbc : b.2.vol ≤ c.2.vol := le_of_not_lt hcv
            rw [hcq] at hvol
            exact le_antisymm (hvol ▸ hbc) hr1
          have hrb := ih b hp' b (List.mem_cons_self _ _) hbvol
          rw [hcq]
          exact le_trans hrb (le_of_lt (hblt c (List.mem_cons_self _ _)))
        · exact ih b hp' y (List.mem_cons_of_mem _ hy3) hvol

/-- `selectBest` returns `none` exactly on the empty candidate list. -/
theorem selectBest_eq_none {l : List (Nat × Probe)} :
    selectBest l = none ↔ l = [] := by
  cases l <;> simp [selectBest]

/-- A selected entry is one of the candidates. -/
theorem selectBest_mem {l : List (Nat × Probe)} {x : Nat × Probe}
    (h : selectBest l = some x) : x ∈ l := by
  cases l with
  | nil => simp [selectBest] at h
  | cons e es =>
    simp only [selectBest, Option.some.injEq] at h
    rw [← h]
    exact foldl_choose_mem es e

/-- A selected entry has minimal volume among the candidates. -/
theorem selectBest_minVol {l : List (Nat × Probe)} {x : Nat × Probe}
    (h : selectBest l = some x) : ∀ y ∈ l, x.2.vol ≤ y.2.vol := by
  cases l with
  | nil => simp [selectBest] at h
  | cons e es =>
    simp only [selectBest, Option.some.injEq] at h
    intro y hy
    obtain ⟨h1, h2⟩ := foldl_choose_vol es e
    rcases List.mem_cons.mp hy with rfl | hy2
    · rw [← h]; exact h1
    · rw [← h]; exact h2 y hy2

/-- With strictly increasing IDs, a selected entry is the earliest-registered
among candidates of equal (minimal) volume. -/
theorem selectBest_tie {l : List (Nat × Probe)} {x : Nat × Probe}
    (hp : l.Pairwise (fun a c => a.1 < c.1)) (h : selectBest l = some x) :
    ∀ y ∈ l, y.2.vol = x.2.vol → x.1 ≤ y.1 := by
  cases l with
  | nil => simp [selectBest] at h
  | cons e es =>
    simp only [selectBest, Option.some.injEq] at h
    intro y hy hvol
    rw [← h]
    exact foldl_choose_tie es e hp y hy (by rw [hvol, ← h])

/-- Explicit (propositional) form of `activeAt`: invertible transform,
containment, loaded light data. -/
def ProbeActive (loaded : Handle → Bool) (f : Fragment) (p : Probe) : Prop :=
  p.transform.det ≠ 0 ∧ Affine.contains p.transform f.pos = true ∧
    loaded p.lightData = true

/-- Explicit form of diffuse-chain candidacy at kind `k`. -/
def DiffuseApplies (loaded : Handle → Bool) (f : Fragment) (k : ProbeKind)
    (p : Probe) : Prop :=
  p.kind = k ∧ ProbeActive loaded f p ∧
    (p.affectsLightmapped = true ∨ f.hasLightmap = false)

/-- Explicit form of specular-chain candidacy. -/
def SpecularApplies (loaded : Handle → Bool) (f : Fragment) (p : Probe) : Prop :=
  p.kind = ProbeKind.reflection ∧ ProbeActive loaded f p

/-- The Boolean `activeAt` test agrees with `ProbeActive`. -/
theorem activeAt_iff (loaded : Handle → Bool) (f : Fragment) (p : Probe) :
    activeAt loaded f p = true ↔ ProbeActive loaded f p := by
  simp [activeAt, ProbeActive, Bool.and_eq_true, decide_eq_true_iff, and_assoc]

/-- The Boolean diffuse-candidacy test agrees with `DiffuseApplies`. -/
theorem diffuseCandidate_iff (loaded : Handle → Bool) (f : Fragment)
    (k : ProbeKind) (p : Probe) :
    diffuseCandidate loaded f k p = true ↔ DiffuseApplies loaded f k p := by
  simp [diffuseCandidate, DiffuseApplies, Bool.and_eq_true, decide_eq_true_iff,
    activeAt_iff, Bool.or_eq_true, Bool.not_eq_true', and_assoc]

/-- The Boolean specular-candidacy test agrees with `SpecularApplies`. -/
theorem specularCandidate_iff (loaded : Handle → Bool) (f : Fragment) (p : Probe) :
    specularCandidate loaded f p = true ↔ SpecularApplies loaded f p := by
  simp [specularCandidate, SpecularApplies, Bool.and_eq_true, decide_eq_true_iff,
    activeAt_iff]

/-- Selecting from a filtered candidate list yields a registered entry
satisfying the candidate test. -/
theorem selectBest_filter_mem {l : List (Nat × Probe)} {q : Nat × Probe → Bool}
    {e : Nat × Probe} (h : selectBest (l.filter q) = some e) :
    e ∈ l ∧ q e = true :=
  List.mem_filter.mp (selectBest_mem h)

/-- The filtered candidate list selects nothing exactly when no entry
passes the candidate test. -/
theorem selectBest_filter_eq_none {l : List (Nat × Probe)}
    {q : Nat × Probe → Bool} :
    selectBest (l.filter q) = none ↔ ∀ e ∈ l, ¬q e = true := by
  rw [selectBest_eq_none, List.filter_eq_nil_iff]

/-- **C1.** For every fragment, the diffuse source selected by `resolve` is
the first applicable entry of the chain lightmap (1) → irradiance volume
containing the point with `affectsLightmappedMeshes` true-or-no-lightmap (2)
→ reflection probe containing the point (3) → view-level environment map
(4): each applicable rank bounds the selected rank from above (so no
lower-ranked source is chosen while a higher-ranked one is applicable), and
the selected source is itself applicable, with every higher rank
inapplicable. -/
theorem resolveDiffuse_first_applicable
    (reg : Registry) (loaded : Handle → Bool) (f : Fragment) :
    (f.hasLightmap = true → resolveDiffuse reg loaded f = .lightmap) ∧
    ((∃ e ∈ reg.probes, DiffuseApplies loaded f ProbeKind.irradiance e.2) →
      diffuseRank (resolveDiffuse reg loaded f) ≤ 2) ∧
    ((∃ e ∈ reg.probes, DiffuseApplies loaded f ProbeKind.reflection e.2) →
      diffuseRank (resolveDiffuse reg loaded f) ≤ 3) ∧
    (f.hasViewEnvMap = true → diffuseRank (resolveDiffuse reg loaded f) ≤ 4) ∧
    (resolveDiffuse reg loaded f = .lightmap → f.hasLightmap = true) ∧
    (∀ i, resolveDiffuse reg loaded f = .irradianceVolume i →
      ∃ e ∈ reg.probes, e.1 = i ∧
        DiffuseApplies loaded f ProbeKind.irradiance e.2) ∧
    (∀ i, resolveDiffuse reg loaded f = .reflectionProbe i →
      f.hasLightmap = false ∧
      (¬∃ e ∈ reg.probes, DiffuseApplies loaded f ProbeKind.irradiance e.2) ∧
      ∃ e ∈ reg.probes, e.1 = i ∧
        DiffuseApplies loaded f ProbeKind.reflection e.2) ∧
    (resolveDiffuse reg loaded f = .viewEnvMap →
      f.hasLightmap = false ∧ f.hasViewEnvMap = true ∧
      (¬∃ e ∈ reg.probes, DiffuseApplies loaded f ProbeKind.irradiance e.2) ∧
      (¬∃ e ∈ reg.probes, DiffuseApplies loaded f ProbeKind.reflection e.2)) ∧
    (resolveDiffuse reg loaded f = .noSource →
      f.hasLightmap = false ∧ f.hasViewEnvMap = false ∧
      (¬∃ e ∈ reg.probes, DiffuseApplies loaded f ProbeKind.irradiance e.2) ∧
      (¬∃ e ∈ reg.probes, DiffuseApplies loaded f ProbeKind.reflection e.2)) := by
  unfold resolveDiffuse
  by_cases hlm : f.hasLightmap = true
  · rw [if_pos hlm]
    exact ⟨fun _ => rfl, fun _ => by decide, fun _ => by decide, fun _ => by decide,
      fun _ => hlm, fun i h => ResolvedSource.noConfusion h,
      fun i h => ResolvedSource.noConfusion h,
      fun h => ResolvedSource.noConfusion h,
      fun h => ResolvedSource.noConfusion h⟩
  · rw [if_neg hlm]
    have hlmf : f.hasLightmap = false := by simpa using hlm
    cases hirr : selectBest (reg.probes.filter
        (fun e => diffuseCandidate loaded f ProbeKind.irradiance e.2)) with
    | some e =>
      obtain ⟨hmem, hcand⟩ := selectBest_filter_mem hirr
      have happ := (diffuseCandidate_iff loaded f ProbeKind.irradiance e.2).mp hcand
      exact ⟨fun h => absurd h hlm, fun _ => (by decide : (2:Nat) ≤ 2),
        fun _ => (by decide : (2:Nat) ≤ 3), fun _ => (by decide : (2:Nat) ≤ 4),
        fun h => ResolvedSource.noConfusion h,
        fun i h => ⟨e, hmem, ResolvedSource.irradianceVolume.inj h, happ⟩,
        fun i h => ResolvedSource.noConfusion h,
        fun h => ResolvedSource.noConfusion h,
        fun h => ResolvedSource.noConfusion h⟩
    | none =>
      have hnoirr :
          ¬∃ e ∈ reg.probes, DiffuseApplies loaded f ProbeKind.irradiance e.2 := by
        intro hex
        obtain ⟨e, he, ha⟩ := hex
        exact (selectBest_filter_eq_none.mp hirr) e he
          ((diffuseCandidate_iff loaded f ProbeKind.irradiance e.2).mpr ha)
      cases hrefl : selectBest (reg.probes.filter
          (fun e => diffuseCandidate loaded f ProbeKind.reflection e.2)) with
      | some e =>
        obtain ⟨hmem, hcand⟩ := selectBest_filter_mem hrefl
        have happ := (diffuseCandidate_iff loaded f ProbeKind.reflection e.2).mp hcand
        exact ⟨fun h => absurd h hlm, fun hex => absurd hex hnoirr,
          fun _ => (by decide : (3:Nat) ≤ 3), fun _ => (by decide : (3:Nat) ≤ 4),
          fun h => ResolvedSource.noConfusion h,
          fun i h => ResolvedSource.noConfusion h,
          fun i h => ⟨hlmf, hnoirr,
            ⟨e, hmem, ResolvedSource.reflectionProbe.inj h, happ⟩⟩,
          fun h => ResolvedSource.noConfusion h,
          fun h => ResolvedSource.noConfusion h⟩
      | none =>
        have hnorefl :
            ¬∃ e ∈ reg.probes, DiffuseApplies loaded f ProbeKind.reflection e.2 := by
          intro hex
          obtain ⟨e, he, ha⟩ := hex
          exact (selectBest_filter_eq_none.mp hrefl) e he
            ((diffuseCandidate_iff loaded f ProbeKind.reflection e.2).mpr ha)
        by_cases hv : f.hasViewEnvMap = true
        · rw [if_pos hv]
          exact ⟨fun h => absurd h hlm, fun hex => absurd hex hnoirr,
            fun hex => absurd hex hnorefl, fun _ => (by decide : (4:Nat) ≤ 4),
            fun h => ResolvedSource.noConfusion h,
            fun i h => ResolvedSource.noConfusion h,
            fun i h => ResolvedSource.noConfusion h,
            fun _ => ⟨hlmf, hv, hnoirr, hnorefl⟩,
            fun h => ResolvedSource.noConfusion h⟩
        · rw [if_neg hv]
          have hvf : f.hasViewEnvMap = false := by simpa using hv
          exact ⟨fun h => absurd h hlm, fun hex => absurd hex hnoirr,
            fun hex => absurd hex hnorefl, fun h => absurd h hv,
            fun h => ResolvedSource.noConfusion h,
            fun i h => ResolvedSource.noConfusion h,
            fun i h => ResolvedSource.noConfusion h,
            fun h => ResolvedSource.noConfusion h,
            fun _ => ⟨hlmf, hvf, hnoirr, hnorefl⟩⟩

/-- **C2.** For every fragment, the specular source selected by `resolve` is
the first applicable entry of the chain lightmap — only if the lightmap
itself encodes specular, otherwise this rank is skipped — (1) → reflection
probe containing the point (2) → view-level environment map (3); irradiance
volumes never supply the specular source. -/
theorem resolveSpecular_first_applicable
    (reg : Registry) (loaded : Handle → Bool) (f : Fragment) :
    (f.hasLightmap = true → f.lightmapHasSpecular = true →
      resolveSpecular reg loaded f = .lightmap) ∧
    (resolveSpecular reg loaded f = .lightmap →
      f.hasLightmap = true ∧ f.lightmapHasSpecular = true) ∧
    ((∃ e ∈ reg.probes, SpecularApplies loaded f e.2) →
      specularRank (resolveSpecular reg loaded f) ≤ 2) ∧
    (f.hasViewEnvMap = true → specularRank (resolveSpecular reg loaded f) ≤ 3) ∧
    (∀ i, resolveSpecular reg loaded f = .reflectionProbe i →
      ¬(f.hasLightmap = true ∧ f.lightmapHasSpecular = true) ∧
      ∃ e ∈ reg.probes, e.1 = i ∧ SpecularApplies loaded f e.2) ∧
    (resolveSpecular reg loaded f = .viewEnvMap →
      f.hasViewEnvMap = true ∧
      ¬(f.hasLightmap = true ∧ f.lightmapHasSpecular = true) ∧
      (¬∃ e ∈ reg.probes, SpecularApplies loaded f e.2)) ∧
    (resolveSpecular reg loaded f = .noSource →
      f.hasViewEnvMap = false ∧
      ¬(f.hasLightmap = true ∧ f.lightmapHasSpecular = true) ∧
      (¬∃ e ∈ reg.probes, SpecularApplies loaded f e.2)) ∧
    (∀ i, resolveSpecular reg loaded f ≠ .irradianceVolume i) := by
  unfold resolveSpecular
  by_cases hls : (f.hasLightmap && f.lightmapHasSpecular) = true
  · rw [if_pos hls]
    obtain ⟨h1, h2⟩ := Bool.and_eq_true _ _ |>.mp hls
    exact ⟨fun _ _ => rfl, fun _ => ⟨h1, h2⟩, fun _ => (by decide : (1:Nat) ≤ 2),
      fun _ => (by decide : (1:Nat) ≤ 3),
      fun i h => ResolvedSource.noConfusion h,
      fun h => ResolvedSource.noConfusion h,
      fun h => ResolvedSource.noConfusion h,
      fun i h => ResolvedSource.noConfusion h⟩
  · rw [if_neg hls]
    have hnls : ¬(f.hasLightmap = true ∧ f.lightmapHasSpecular = true) := by
      intro hc
      exact hls (Bool.and_eq_true _ _ |>.mpr hc)
    cases hrefl : selectBest (reg.probes.filter
        (fun e => specularCandidate loaded f e.2)) with
    | some e =>
      obtain ⟨hmem, hcand⟩ := selectBest_filter_mem hrefl
      have happ := (specularCandidate_iff loaded f e.2).mp hcand
      exact ⟨fun ha hb => absurd ⟨ha, hb⟩ hnls,
        fun h => ResolvedSource.noConfusion h,
        fun _ => (by decide : (2:Nat) ≤ 2), fun _ => (by decide : (2:Nat) ≤ 3),
        fun i h => ⟨hnls, e, hmem, ResolvedSource.reflectionProbe.inj h, happ⟩,
        fun h => ResolvedSource.noConfusion h,
        fun h => ResolvedSource.noConfusion h,
        fun i h => ResolvedSource.noConfusion h⟩
    | none =>
      have hnorefl : ¬∃ e ∈ reg.probes, SpecularApplies loaded f e.2 := by
        intro hex
        obtain ⟨e, he, ha⟩ := hex
        exact (selectBest_filter_eq_none.mp hrefl) e he
          ((specularCandidate_iff loaded f e.2).mpr ha)
      by_cases hv : f.hasViewEnvMap = true
      · rw [if_pos hv]
        exact ⟨fun ha hb => absurd ⟨ha, hb⟩ hnls,
          fun h => ResolvedSource.noConfusion h,
          fun hex => absurd hex hnorefl, fun _ => (by decide : (3:Nat) ≤ 3),
          fun i h => ResolvedSource.noConfusion h,
          fun _ => ⟨hv, hnls, hnorefl⟩,
          fun h => ResolvedSource.noConfusion h,
          fun i h => ResolvedSource.noConfusion h⟩
      · rw [if_neg hv]
        have hvf : f.hasViewEnvMap = false := by simpa using hv
        exact ⟨fun ha hb => absurd ⟨ha, hb⟩ hnls,
          fun h => ResolvedSource.noConfusion h,
          fun hex => absurd hex hnorefl, fun h => absurd h hv,
          fun i h => ResolvedSource.noConfusion h,
          fun h => ResolvedSource.noConfusion h,
          fun _ => ⟨hvf, hnls, hnorefl⟩,
          fun i h => ResolvedSource.noConfusion h⟩

/-- Decidability of the explicit applicability predicates (they are built
from decidable atoms). -/
instance (loaded : Handle → Bool) (f : Fragment) (p : Probe) :
    Decidable (ProbeActive loaded f p) := by
  unfold ProbeActive; infer_instance

instance (loaded : Handle → Bool) (f : Fragment) (k : ProbeKind) (p : Probe) :
    Decidable (DiffuseApplies loaded f k p) := by
  unfold DiffuseApplies; infer_instance

instance (loaded : Handle → Bool) (f : Fragment) (p : Probe) :
    Decidable (SpecularApplies loaded f p) := by
  unfold SpecularApplies; infer_instance

/-- A concrete irradiance-volume probe: identity transform (unit cube at the
origin), loaded handle 1, suppression flag true. -/
def exIrrProbe : Probe :=
  { transform := Affine.ident, kind := ProbeKind.irradiance,
    lightData := { id := 1 }, affectsLightmapped := true }

/-- A concrete reflection probe: uniform scale 2 about the origin (volume 8),
loaded handle 2, suppression flag true. -/
def exReflProbe : Probe :=
  { transform := Affine.uniformScale 2, kind := ProbeKind.reflection,
    lightData := { id := 2 }, affectsLightmapped := true }

/-- A concrete registry holding the two example probes. -/
def exRegistry : Registry :=
  { probes := [(0, exIrrProbe), (1, exReflProbe)], nextId := 2 }

/-- A loaded-handle oracle in which every handle is loaded. -/
def exLoaded : Handle → Bool := fun _ => true

/-- A concrete fragment at the origin, with no lightmap and a view-level
environment map available. -/
def exFrag : Fragment :=
  { pos := { x := 0, y := 0, z := 0 }, hasLightmap := false,
    lightmapHasSpecular := false, hasViewEnvMap := true }

/-- The example irradiance probe is active at the example fragment. -/
theorem exIrrProbe_active : ProbeActive exLoaded exFrag exIrrProbe := by
  refine ⟨?_, ?_, rfl⟩
  · norm_num [Affine.det, Affine.ident, exIrrProbe]
  · norm_num [Affine.contains, Affine.invApply, Affine.det, Affine.ident,
      exIrrProbe, exFrag]

/-- The example reflection probe is active at the example fragment. -/
theorem exReflProbe_active : ProbeActive exLoaded exFrag exReflProbe := by
  refine ⟨?_, ?_, rfl⟩
  · norm_num [Affine.det, Affine.uniformScale, exReflProbe]
  · norm_num [Affine.contains, Affine.invApply, Affine.det, Affine.uniformScale,
      exReflProbe, exFrag]

/-- The example irradiance probe is a diffuse-chain candidate. -/
theorem exIrrProbe_diffuseApplies :
    DiffuseApplies exLoaded exFrag ProbeKind.irradiance exIrrProbe :=
  ⟨rfl, exIrrProbe_active, Or.inl rfl⟩

/-- The example reflection probe is a specular-chain candidate. -/
theorem exReflProbe_specularApplies : SpecularApplies exLoaded exFrag exReflProbe :=
  ⟨rfl, exReflProbe_active⟩

/-- Witness for C1: in the concrete scenario an irradiance volume applies,
and the resolved diffuse source indeed ranks at most 2. -/
theorem resolveDiffuse_first_applicable_witness :
    (∃ e ∈ exRegistry.probes,
      DiffuseApplies exLoaded exFrag ProbeKind.irradiance e.2) ∧
    diffuseRank (resolveDiffuse exRegistry exLoaded exFrag) ≤ 2 :=
  ⟨⟨(0, exIrrProbe), List.mem_cons_self _ _, exIrrProbe_diffuseApplies⟩,
    (resolveDiffuse_first_applicable exRegistry exLoaded exFrag).2.1
      ⟨(0, exIrrProbe), List.mem_cons_self _ _, exIrrProbe_diffuseApplies⟩⟩

/-- Witness for C2: in the concrete scenario a reflection probe applies,
and the resolved specular source indeed ranks at most 2. -/
theorem resolveSpecular_first_applicable_witness :
    (∃ e ∈ exRegistry.probes, SpecularApplies exLoaded exFrag e.2) ∧
    specularRank (resolveSpecular exRegistry exLoaded exFrag) ≤ 2 :=
  ⟨⟨(1, exReflProbe), List.mem_cons_of_mem _ (List.mem_cons_self _ _),
      exReflProbe_specularApplies⟩,
    (resolveSpecular_first_applicable exRegistry exLoaded exFrag).2.2.1
      ⟨(1, exReflProbe), List.mem_cons_of_mem _ (List.mem_cons_self _ _),
        exReflProbe_specularApplies⟩⟩

/-- **C5.** For every world point and every probe volume with an invertible
affine transform, `contains(worldPoint)` returns true if and only if every
coordinate of the point mapped through the inverse transform lies in the
closed interval `[-0.5, 0.5]` (ties at exactly `0.5` count as inside).  The
preimage is characterised abstractly: `q` is the unique point the transform
maps to `p`, so the theorem checks that the adjugate-based inverse inside
`contains` really inverts the transform.  `contains` is a pure function, so
the test has no side effects. -/
theorem contains_iff_unitCube (a : Affine) (p q : Vec3) (hdet : a.det ≠ 0)
    (hq : a.applyAffine q = p) :
    Affine.contains a p = true ↔
      (-(1 / 2 : ℚ) ≤ q.x ∧ q.x ≤ 1 / 2 ∧ -(1 / 2 : ℚ) ≤ q.y ∧ q.y ≤ 1 / 2 ∧
       -(1 / 2 : ℚ) ≤ q.z ∧ q.z ≤ 1 / 2) := by
  have hinv : a.invApply p = q := by
    rw [← hq]
    exact a.invApply_applyAffine q hdet
  unfold Affine.contains
  rw [hinv]
  simp [Bool.and_eq_true, decide_eq_true_iff, and_assoc]

/-- Witness for C5: the identity-transformed unit cube contains the boundary
point `(1/2, 0, 0)` (a tie at exactly `0.5` counts as inside). -/
theorem contains_iff_unitCube_witness :
    Affine.contains Affine.ident { x := 1 / 2, y := 0, z := 0 } = true :=
  (contains_iff_unitCube Affine.ident { x := 1 / 2, y := 0, z := 0 }
      { x := 1 / 2, y := 0, z := 0 }
      (by norm_num [Affine.det, Affine.ident])
      (by simp [Affine.applyAffine, Affine.ident])).mpr
    (by norm_num)

/-- **C10.** The default-constructed `EnvironmentMapLight`,
`GeneratedEnvironmentMapLight` and `IrradianceVolume` all have intensity
`0.0` (the valid "off" state), identity rotation where a rotation field
exists (`IrradianceVolume` has none), and the affects-lightmapped flag set
to `true`: a default-constructed source suppresses nothing and contributes
nothing until its intensity is raised. -/
theorem defaults_off_identity_nonsuppressing :
    EnvironmentMapLight.defaultValue.intensity = 0 ∧
    EnvironmentMapLight.defaultValue.rotation = Quat.IDENTITY ∧
    EnvironmentMapLight.defaultValue.affects_lightmapped_mesh_diffuse = true ∧
    GeneratedEnvironmentMapLight.defaultValue.intensity = 0 ∧
    GeneratedEnvironmentMapLight.defaultValue.rotation = Quat.IDENTITY ∧
    GeneratedEnvironmentMapLight.defaultValue.affects_lightmapped_mesh_diffuse = true ∧
    IrradianceVolume.defaultValue.intensity = 0 ∧
    IrradianceVolume.defaultValue.affects_lightmapped_meshes = true :=
  ⟨rfl, rfl, rfl, rfl, rfl, rfl, rfl, rfl⟩

/-- Inversion: a diffuse irradiance-volume result comes from `selectBest`
over the irradiance candidate list. -/
theorem resolveDiffuse_irr_inv {reg : Registry} {loaded : Handle → Bool}
    {f : Fragment} {i : Nat}
    (h : resolveDiffuse reg loaded f = .irradianceVolume i) :
    ∃ e, selectBest (reg.probes.filter
        (fun e => diffuseCandidate loaded f ProbeKind.irradiance e.2)) = some e ∧
      e.1 = i := by
  unfold resolveDiffuse at h
  by_cases hlm : f.hasLightmap = true
  · rw [if_pos hlm] at h
    exact ResolvedSource.noConfusion h
  · rw [if_neg hlm] at h
    cases hirr : selectBest (reg.probes.filter
        (fun e => diffuseCandidate loaded f ProbeKind.irradiance e.2)) with
    | some e =>
      rw [hirr] at h
      exact ⟨e, rfl, ResolvedSource.irradianceVolume.inj h⟩
    | none =>
      rw [hirr] at h
      cases hrefl : selectBest (reg.probes.filter
          (fun e => diffuseCandidate loaded f ProbeKind.reflection e.2)) with
      | some e =>
        rw [hrefl] at h
        exact ResolvedSource.noConfusion h
      | none =>
        rw [hrefl] at h
        by_cases hv : f.hasViewEnvMap = true
        · rw [if_pos hv] at h; exact ResolvedSource.noConfusion h
        · rw [if_neg hv] at h; exact ResolvedSource.noConfusion h

/-- Inversion: a diffuse reflection-probe result comes from `selectBest`
over the reflection candidate list. -/
theorem resolveDiffuse_refl_inv {reg : Registry} {loaded : Handle → Bool}
    {f : Fragment} {i : Nat}
    (h : resolveDiffuse reg loaded f = .reflectionProbe i) :
    ∃ e, selectBest (reg.probes.filter
        (fun e => diffuseCandidate loaded f ProbeKind.reflection e.2)) = some e ∧
      e.1 = i := by
  unfold resolveDiffuse at h
  by_cases hlm : f.hasLightmap = true
  · rw [if_pos hlm] at h
    exact ResolvedSource.noConfusion h
  · rw [if_neg hlm] at h
    cases hirr : selectBest (reg.probes.filter
        (fun e => diffuseCandidate loaded f ProbeKind.irradiance e.2)) with
    | some e =>
      rw [hirr] at h
      exact ResolvedSource.noConfusion h
    | none =>
      rw [hirr] at h
      cases hrefl : selectBest (reg.probes.filter
          (fun e => diffuseCandidate loaded f ProbeKind.reflection e.2)) with
      | some e =>
        rw [hrefl] at h
        exact ⟨e, rfl, ResolvedSource.reflectionProbe.inj h⟩
      | none =>
        rw [hrefl] at h
        by_cases hv : f.hasViewEnvMap = true
        · rw [if_pos hv] at h; exact ResolvedSource.noConfusion h
        · rw [if_neg hv] at h; exact ResolvedSource.noConfusion h

/-- Inversion: a specular reflection-probe result comes from `selectBest`
over the specular candidate list. -/
theorem resolveSpecular_refl_inv {reg : Registry} {loaded : Handle → Bool}
    {f : Fragment} {i : Nat}
    (h : resolveSpecular reg loaded f = .reflectionProbe i) :
    ∃ e, selectBest (reg.probes.filter
        (fun e => specularCandidate loaded f e.2)) = some e ∧ e.1 = i := by
  unfold resolveSpecular at h
  by_cases hls : (f.hasLightmap && f.lightmapHasSpecular) = true
  · rw [if_pos hls] at h
    exact ResolvedSource.noConfusion h
  · rw [if_neg hls] at h
    cases hrefl : selectBest (reg.probes.filter
        (fun e => specularCandidate loaded f e.2)) with
    | some e =>
      rw [hrefl] at h
      exact ⟨e, rfl, ResolvedSource.reflectionProbe.inj h⟩
    | none =>
      rw [hrefl] at h
      by_cases hv : f.hasViewEnvMap = true
      · rw [if_pos hv] at h; exact ResolvedSource.noConfusion h
      · rw [if_neg hv] at h; exact ResolvedSource.noConfusion h

/-- `selectBest` over a filtered, registration-ordered candidate list picks
a registered candidate of minimal volume, earliest-registered on ties. -/
theorem selectBest_filter_spec {l : List (Nat × Probe)} {q : Nat × Probe → Bool}
    {e : Nat × Probe} (hp : l.Pairwise (fun a b => a.1 < b.1))
    (h : selectBest (l.filter q) = some e) :
    e ∈ l ∧ q e = true ∧
      ∀ y ∈ l, q y = true →
        e.2.vol ≤ y.2.vol ∧ (y.2.vol = e.2.vol → e.1 ≤ y.1) := by
  obtain ⟨hmem, hq⟩ := selectBest_filter_mem h
  refine ⟨hmem, hq, ?_⟩
  intro y hy hqy
  have hyf : y ∈ l.filter q := List.mem_filter.mpr ⟨hy, hqy⟩
  exact ⟨selectBest_minVol h y hyf, fun hvol =>
    selectBest_tie (hp.filter q) h y hyf hvol⟩

/-- **C3.** Whenever probe volumes of the same kind contain a fragment,
`resolve` deterministically selects the one with the smallest bounding
volume (by scale magnitude, i.e. `|det|` of the transform); among volumes
of exactly equal volume the earliest-registered one (smallest stable ID,
registration order) is selected — in each of the three probe-selecting
positions of the two chains. -/
theorem resolve_tiebreak (reg : Registry) (loaded : Handle → Bool) (f : Fragment)
    (hp : reg.probes.Pairwise (fun a b => a.1 < b.1)) :
    (∀ i, resolveDiffuse reg loaded f = .irradianceVolume i →
      ∃ e ∈ reg.probes, e.1 = i ∧
        ∀ y ∈ reg.probes, DiffuseApplies loaded f ProbeKind.irradiance y.2 →
          e.2.vol ≤ y.2.vol ∧ (y.2.vol = e.2.vol → e.1 ≤ y.1)) ∧
    (∀ i, resolveDiffuse reg loaded f = .reflectionProbe i →
      ∃ e ∈ reg.probes, e.1 = i ∧
        ∀ y ∈ reg.probes, DiffuseApplies loaded f ProbeKind.reflection y.2 →
          e.2.vol ≤ y.2.vol ∧ (y.2.vol = e.2.vol → e.1 ≤ y.1)) ∧
    (∀ i, resolveSpecular reg loaded f = .reflectionProbe i →
      ∃ e ∈ reg.probes, e.1 = i ∧
        ∀ y ∈ reg.probes, SpecularApplies loaded f y.2 →
          e.2.vol ≤ y.2.vol ∧ (y.2.vol = e.2.vol → e.1 ≤ y.1)) := by
  refine ⟨?_, ?_, ?_⟩
  · intro i hres
    obtain ⟨e, hsel, hei⟩ := resolveDiffuse_irr_inv hres
    obtain ⟨hmem, _, hmin⟩ := selectBest_filter_spec hp hsel
    exact ⟨e, hmem, hei, fun y hy happ =>
      hmin y hy ((diffuseCandidate_iff loaded f ProbeKind.irradiance y.2).mpr happ)⟩
  · intro i hres
    obtain ⟨e, hsel, hei⟩ := resolveDiffuse_refl_inv hres
    obtain ⟨hmem, _, hmin⟩ := selectBest_filter_spec hp hsel
    exact ⟨e, hmem, hei, fun y hy happ =>
      hmin y hy ((diffuseCandidate_iff loaded f ProbeKind.reflection y.2).mpr happ)⟩
  · intro i hres
    obtain ⟨e, hsel, hei⟩ := resolveSpecular_refl_inv hres
    obtain ⟨hmem, _, hmin⟩ := selectBest_filter_spec hp hsel
    exact ⟨e, hmem, hei, fun y hy happ =>
      hmin y hy ((specularCandidate_iff loaded f y.2).mpr happ)⟩

/-- A large reflection probe: uniform scale 2 (volume 8). -/
def exBigRefl : Probe :=
  { transform := Affine.uniformScale 2, kind := ProbeKind.reflection,
    lightData := { id := 3 }, affectsLightmapped := true }

/-- A small reflection probe: identity transform (volume 1), registered
after the large one; 8:1 volume ratio. -/
def exSmallRefl : Probe :=
  { transform := Affine.ident, kind := ProbeKind.reflection,
    lightData := { id := 4 }, affectsLightmapped := true }

/-- A registry with the two overlapping reflection probes (large first). -/
def exTieReg : Registry :=
  { probes := [(0, exBigRefl), (1, exSmallRefl)], nextId := 2 }

/-- The large probe is active at the example fragment. -/
theorem exBigRefl_active : ProbeActive exLoaded exFrag exBigRefl := by
  refine ⟨?_, ?_, rfl⟩
  · norm_num [Affine.det, Affine.uniformScale, exBigRefl]
  · norm_num [Affine.contains, Affine.invApply, Affine.det, Affine.uniformScale,
      exBigRefl, exFrag]

/-- The small probe is active at the example fragment. -/
theorem exSmallRefl_active : ProbeActive exLoaded exFrag exSmallRefl := by
  refine ⟨?_, ?_, rfl⟩
  · norm_num [Affine.det, Affine.ident, exSmallRefl]
  · norm_num [Affine.contains, Affine.invApply, Affine.det, Affine.ident,
      exSmallRefl, exFrag]

/-- The large probe has volume 8. -/
theorem exBigRefl_vol : exBigRefl.vol = 8 := by
  norm_num [Probe.vol, Affine.det, Affine.uniformScale, exBigRefl]

/-- The small probe has volume 1. -/
theorem exSmallRefl_vol : exSmallRefl.vol = 1 := by
  norm_num [Probe.vol, Affine.det, Affine.ident, exSmallRefl]

/-- Concrete evaluation: on the 8:1 overlap the specular chain selects the
smaller probe (ID 1). -/
theorem exTieReg_specular_eval :
    resolveSpecular exTieReg exLoaded exFrag = .reflectionProbe 1 := by
  have hb : specularCandidate exLoaded exFrag exBigRefl = true :=
    (specularCandidate_iff exLoaded exFrag exBigRefl).mpr ⟨rfl, exBigRefl_active⟩
  have hs : specularCandidate exLoaded exFrag exSmallRefl = true :=
    (specularCandidate_iff exLoaded exFrag exSmallRefl).mpr ⟨rfl, exSmallRefl_active⟩
  have hfil : exTieReg.probes.filter
      (fun e => specularCandidate exLoaded exFrag e.2) =
      [(0, exBigRefl), (1, exSmallRefl)] := by
    simp [exTieReg, List.filter_cons, hb, hs]
  have hsel : selectBest [(0, exBigRefl), (1, exSmallRefl)] =
      some (1, exSmallRefl) := by
    simp only [selectBest, List.foldl_cons, List.foldl_nil]
    unfold chooseSmaller
    rw [if_pos]
    rw [exSmallRefl_vol, exBigRefl_vol]
    norm_num
  unfold resolveSpecular
  rw [if_neg (by simp [exFrag]), hfil, hsel]

/-- Witness for C3: on the 8:1 overlap (scale 2 vs scale 1) the selected
specular probe is the smaller, later-registered one, and it is minimal in
volume among all applicable candidates. -/
theorem resolve_tiebreak_witness :
    ∃ e ∈ exTieReg.probes, e.1 = 1 ∧
      ∀ y ∈ exTieReg.probes, SpecularApplies exLoaded exFrag y.2 →
        e.2.vol ≤ y.2.vol ∧ (y.2.vol = e.2.vol → e.1 ≤ y.1) :=
  (resolve_tiebreak exTieReg exLoaded exFrag
      (by simp [exTieReg, List.pairwise_cons])).2.2 1 exTieReg_specular_eval

/-- With strictly increasing IDs, registry entries are determined by their
ID. -/
theorem pairwise_keys_inj {l : List (Nat × Probe)}
    (hp : l.Pairwise (fun a b => a.1 < b.1)) :
    ∀ a ∈ l, ∀ b ∈ l, a.1 = b.1 → a = b := by
  induction l with
  | nil => intro a ha; exact absurd ha (List.not_mem_nil a)
  | cons c cs ih =>
    rw [List.pairwise_cons] at hp
    obtain ⟨hc, hp2⟩ := hp
    intro a ha b hb heq
    rcases List.mem_cons.mp ha with rfl | ha2 <;>
      rcases List.mem_cons.mp hb with rfl | hb2
    · rfl
    · have h := hc b hb2
      rw [heq] at h
      exact absurd h (lt_irrefl _)
    · have h := hc a ha2
      rw [← heq] at h
      exact absurd h (lt_irrefl _)
    · exact ih hp2 a ha2 b hb2 heq

/-- **C7.** `resolve` is total (it is a function in the model; it always
yields a result): when no probe volume contains the fragment and neither a
lightmap nor a view environment map is available, both chains produce
`noSource`; and a probe whose light-data handle is not loaded is treated as
absent — it is never selected by either chain. -/
theorem resolve_total_treats_unloaded_absent
    (reg : Registry) (loaded : Handle → Bool) (f : Fragment)
    (hp : reg.probes.Pairwise (fun a b => a.1 < b.1)) :
    ((f.hasLightmap = false ∧ f.hasViewEnvMap = false ∧
        ∀ e ∈ reg.probes, Affine.contains e.2.transform f.pos = false) →
      resolveDiffuse reg loaded f = .noSource ∧
      resolveSpecular reg loaded f = .noSource) ∧
    (∀ e ∈ reg.probes, loaded e.2.lightData = false →
      resolveDiffuse reg loaded f ≠ .irradianceVolume e.1 ∧
      resolveDiffuse reg loaded f ≠ .reflectionProbe e.1 ∧
      resolveSpecular reg loaded f ≠ .reflectionProbe e.1) := by
  constructor
  · rintro ⟨hlm, hv, hcont⟩
    have hnoact : ∀ e ∈ reg.probes, activeAt loaded f e.2 = false := by
      intro e he
      rw [Bool.eq_false_iff]
      intro hact
      have := ((activeAt_iff loaded f e.2).mp hact).2.1
      rw [hcont e he] at this
      exact Bool.false_ne_true this
    have hno1 : selectBest (reg.probes.filter
        (fun e => diffuseCandidate loaded f ProbeKind.irradiance e.2)) = none := by
      rw [selectBest_filter_eq_none]
      intro e he hc
      have := ((diffuseCandidate_iff loaded f ProbeKind.irradiance e.2).mp hc).2.1
      have hact := (activeAt_iff loaded f e.2).mpr this
      rw [hnoact e he] at hact
      exact Bool.false_ne_true hact
    have hno2 : selectBest (reg.probes.filter
        (fun e => diffuseCandidate loaded f ProbeKind.reflection e.2)) = none := by
      rw [selectBest_filter_eq_none]
      intro e he hc
      have := ((diffuseCandidate_iff loaded f ProbeKind.reflection e.2).mp hc).2.1
      have hact := (activeAt_iff loaded f e.2).mpr this
      rw [hnoact e he] at hact
      exact Bool.false_ne_true hact
    have hno3 : selectBest (reg.probes.filter
        (fun e => specularCandidate loaded f e.2)) = none := by
      rw [selectBest_filter_eq_none]
      intro e he hc
      have := ((specularCandidate_iff loaded f e.2).mp hc).2
      have hact := (activeAt_iff loaded f e.2).mpr this
      rw [hnoact e he] at hact
      exact Bool.false_ne_true hact
    constructor
    · unfold resolveDiffuse
      rw [if_neg (by simp [hlm]), hno1, hno2, if_neg (by simp [hv])]
    · unfold resolveSpecular
      rw [if_neg (by simp [hlm]), hno3, if_neg (by simp [hv])]
  · intro e he hload
    have habsent : ∀ {e' : Nat × Probe}, e' ∈ reg.probes → e'.1 = e.1 →
        ProbeActive loaded f e'.2 → False := by
      intro e' he' heq hact
      have : e' = e := pairwise_keys_inj hp e' he' e he heq
      rw [this] at hact
      have := hact.2.2
      rw [hload] at this
      exact Bool.false_ne_true this
    refine ⟨?_, ?_, ?_⟩ <;> intro hres
    · obtain ⟨e', hsel, hei⟩ := resolveDiffuse_irr_inv hres
      obtain ⟨hmem, hq⟩ := selectBest_filter_mem hsel
      exact habsent hmem hei
        ((diffuseCandidate_iff loaded f ProbeKind.irradiance e'.2).mp hq).2.1
    · obtain ⟨e', hsel, hei⟩ := resolveDiffuse_refl_inv hres
      obtain ⟨hmem, hq⟩ := selectBest_filter_mem hsel
      exact habsent hmem hei
        ((diffuseCandidate_iff loaded f ProbeKind.reflection e'.2).mp hq).2.1
    · obtain ⟨e', hsel, hei⟩ := resolveSpecular_refl_inv hres
      obtain ⟨hmem, hq⟩ := selectBest_filter_mem hsel
      exact habsent hmem hei ((specularCandidate_iff loaded f e'.2).mp hq).2

/-- A fragment with no lightmap and no view environment map. -/
def exFragNone : Fragment :=
  { pos := { x := 0, y := 0, z := 0 }, hasLightmap := false,
    lightmapHasSpecular := false, hasViewEnvMap := false }

/-- Witness for C7: with an empty registry, no lightmap and no view
environment map, both chains resolve to `noSource`. -/
theorem resolve_total_treats_unloaded_absent_witness :
    resolveDiffuse Registry.empty exLoaded exFragNone = .noSource ∧
    resolveSpecular Registry.empty exLoaded exFragNone = .noSource :=
  (resolve_total_treats_unloaded_absent Registry.empty exLoaded exFragNone
      List.Pairwise.nil).1
    ⟨rfl, rfl, fun e he => absurd he (List.not_mem_nil e)⟩

/-- Registering a probe and then removing it by its assigned ID restores
the original probe list. -/
theorem add_remove_probes (reg : Registry) (p : Probe)
    (hid : ∀ e ∈ reg.probes, e.1 < reg.nextId) :
    ((reg.add p).remove reg.nextId).probes = reg.probes := by
  simp only [Registry.add, Registry.remove]
  rw [List.filter_append]
  have h1 : reg.probes.filter (fun e => decide (e.1 ≠ reg.nextId)) = reg.probes :=
    List.filter_eq_self.mpr
      (fun e he => decide_eq_true (Nat.ne_of_lt (hid e he)))
  have h2 : [(reg.nextId, p)].filter (fun e => decide (e.1 ≠ reg.nextId)) = [] := by
    simp
  rw [h1, h2, List.append_nil]

/-- **C8.** For every well-formed registry state and every probe,
registering that probe and then immediately removing it (by the ID the
registration assigned) yields a registry on which `resolve` returns the
same result on every input as the original registry: registration followed
by removal leaves no residual state observable by resolution. -/
theorem register_remove_roundtrip (reg : Registry) (p : Probe)
    (hid : ∀ e ∈ reg.probes, e.1 < reg.nextId)
    (loaded : Handle → Bool) (f : Fragment) :
    resolve ((reg.add p).remove reg.nextId) loaded f = resolve reg loaded f := by
  have hprobes := add_remove_probes reg p hid
  unfold resolve resolveDiffuse resolveSpecular
  rw [hprobes]

/-- Witness for C8: adding and removing a probe on the concrete registry
leaves resolution unchanged for the concrete fragment. -/
theorem register_remove_roundtrip_witness :
    resolve ((exRegistry.add exBigRefl).remove exRegistry.nextId)
        exLoaded exFrag =
      resolve exRegistry exLoaded exFrag :=
  register_remove_roundtrip exRegistry exBigRefl
    (by simp [exRegistry]) exLoaded exFrag

/-- Update only the suppression flag of one registry entry (ID kept). -/
def flagMap (g : Nat → Bool) (e : Nat × Probe) : Nat × Probe :=
  (e.1, { e.2 with affectsLightmapped := g e.1 })

/-- Filtering commutes with a map that preserves the filter predicate. -/
theorem filter_map_comm {α : Type} (φ : α → α) (q : α → Bool)
    (hq : ∀ e, q (φ e) = q e) (l : List α) :
    (l.map φ).filter q = (l.filter q).map φ := by
  induction l with
  | nil => rfl
  | cons e es ih =>
    by_cases hqe : q e = true
    · simp [List.filter_cons, hq e, hqe, ih]
    · have hqf : q e = false := Bool.eq_false_iff.mpr hqe
      simp [List.filter_cons, hq e, hqf, ih]

/-- The tie-break step is unaffected by suppression-flag updates (they
change neither volumes nor IDs). -/
theorem chooseSmaller_flagMap (g : Nat → Bool) (b y : Nat × Probe) :
    chooseSmaller (flagMap g b) (flagMap g y) = flagMap g (chooseSmaller b y) := by
  unfold chooseSmaller
  have hv : (flagMap g y).2.vol = y.2.vol := rfl
  have hb : (flagMap g b).2.vol = b.2.vol := rfl
  rw [hv, hb]
  by_cases hc : y.2.vol < b.2.vol
  · rw [if_pos hc, if_pos hc]
  · rw [if_neg hc, if_neg hc]

/-- The tie-break fold is unaffected by suppression-flag updates. -/
theorem foldl_choose_flagMap (g : Nat → Bool) (l : List (Nat × Probe)) :
    ∀ b, (l.map (flagMap g)).foldl chooseSmaller (flagMap g b) =
      flagMap g (l.foldl chooseSmaller b) := by
  induction l with
  | nil => intro b; rfl
  | cons y ys ih =>
    intro b
    rw [List.map_cons, List.foldl_cons, List.foldl_cons, chooseSmaller_flagMap]
    exact ih (chooseSmaller b y)

/-- `selectBest` commutes with suppression-flag updates. -/
theorem selectBest_flagMap (g : Nat → Bool) (l : List (Nat × Probe)) :
    selectBest (l.map (flagMap g)) = (selectBest l).map (flagMap g) := by
  cases l with
  | nil => rfl
  | cons e es =>
    show some ((es.map (flagMap g)).foldl chooseSmaller (flagMap g e)) =
      some (flagMap g (es.foldl chooseSmaller e))
    rw [foldl_choose_flagMap]

/-- **C4.** For every fragment where a lightmap is present, a candidate
probe whose affects-lightmapped flag is false is skipped by the diffuse
chain (it fails diffuse candidacy at both kinds, and is never the resolved
diffuse source, so resolution falls through to the next-ranked source); the
specular chain is unchanged by this flag — arbitrarily rewriting every
registered probe's flag leaves the specular result identical. -/
theorem suppression_gates_diffuse_only (reg : Registry) (loaded : Handle → Bool)
    (f : Fragment) (hlm : f.hasLightmap = true) :
    (∀ e ∈ reg.probes, e.2.affectsLightmapped = false →
      (∀ k, ¬DiffuseApplies loaded f k e.2) ∧
      resolveDiffuse reg loaded f ≠ .irradianceVolume e.1 ∧
      resolveDiffuse reg loaded f ≠ .reflectionProbe e.1) ∧
    (∀ g : Nat → Bool,
      resolveSpecular (reg.mapFlags g) loaded f = resolveSpecular reg loaded f) := by
  constructor
  · intro e _ hflag
    have hres : resolveDiffuse reg loaded f = .lightmap := by
      unfold resolveDiffuse
      rw [if_pos hlm]
    refine ⟨?_, ?_, ?_⟩
    · rintro k ⟨_, _, hor⟩
      rcases hor with hf | hl
      · rw [hflag] at hf
        exact Bool.false_ne_true hf
      · rw [hl] at hlm
        exact Bool.false_ne_true hlm
    · rw [hres]
      exact fun hc => ResolvedSource.noConfusion hc
    · rw [hres]
      exact fun hc => ResolvedSource.noConfusion hc
  · intro g
    unfold resolveSpecular
    have hfil : (reg.mapFlags g).probes.filter
        (fun e => specularCandidate loaded f e.2) =
        (reg.probes.filter (fun e => specularCandidate loaded f e.2)).map
          (flagMap g) := by
      show (reg.probes.map (flagMap g)).filter _ = _
      exact filter_map_comm (flagMap g)
        (fun e => specularCandidate loaded f e.2) (fun e => rfl) reg.probes
    rw [hfil, selectBest_flagMap]
    cases hs : selectBest (reg.probes.filter
        (fun e => specularCandidate loaded f e.2)) with
    | none => rfl
    | some e => rfl

/-- A reflection probe with the suppression flag cleared. -/
def exSupProbe : Probe :=
  { transform := Affine.ident, kind := ProbeKind.reflection,
    lightData := { id := 5 }, affectsLightmapped := false }

/-- A registry holding only the suppressed probe. -/
def exRegSup : Registry := { probes := [(0, exSupProbe)], nextId := 1 }

/-- A fragment carrying a lightmap (view environment map available). -/
def exFragLm : Fragment :=
  { pos := { x := 0, y := 0, z := 0 }, hasLightmap := true,
    lightmapHasSpecular := false, hasViewEnvMap := true }

/-- Witness for C4: with a lightmap present, the flag-false probe fails
diffuse candidacy and is not the resolved diffuse source. -/
theorem suppression_gates_diffuse_only_witness :
    (¬DiffuseApplies exLoaded exFragLm ProbeKind.reflection exSupProbe) ∧
    resolveDiffuse exRegSup exLoaded exFragLm ≠ .reflectionProbe 0 :=
  have h := (suppression_gates_diffuse_only exRegSup exLoaded exFragLm rfl).1
    (0, exSupProbe) (List.mem_cons_self _ _) rfl
  ⟨h.1 ProbeKind.reflection, h.2.2⟩

/-- Modelled from the spec: a loaded source image — the filter pipeline
only needs its per-face edge length.  Missing from `src/`: only the
`GeneratedEnvironmentMapLight.environment_map` handle (whose size "must be
a power of two") is in the source file. -/
structure Image where
  faceSize : Nat
  deriving DecidableEq, Repr

/-- Modelled from the spec (§7): the error kinds of the filter pipeline. -/
inductive FilterError where
  | invalidSourceDimensions
  deriving DecidableEq, Repr

/-- Modelled from the spec: the filter pipeline's observable state — the
scheduled filtering jobs and the published output texture pairs
(diffuse irradiance map, specular prefiltered map). -/
structure FilterState where
  jobs : List Image
  published : List (Handle × Handle)
  deriving DecidableEq, Repr

/-- Executable power-of-two test on the face edge length. -/
def isPow2 (n : Nat) : Bool :=
  (List.range (n + 1)).any (fun k => n == 2 ^ k)

/-- `isPow2` decides exactly the powers of two. -/
theorem isPow2_iff (n : Nat) : isPow2 n = true ↔ ∃ k, n = 2 ^ k := by
  unfold isPow2
  rw [List.any_eq_true]
  constructor
  · rintro ⟨k, _, hk⟩
    exact ⟨k, by simpa using hk⟩
  · rintro ⟨k, hk⟩
    refine ⟨k, List.mem_range.mpr (Nat.lt_succ_of_lt ?_), by simpa using hk⟩
    calc k < 2 ^ k := Nat.lt_two_pow k
    _ = n := hk.symm

/-- Modelled from the spec: the filter-trigger entry point.  A power-of-two
source schedules one filtering job; any other source is rejected with
`InvalidSourceDimensions`, scheduling nothing and publishing nothing.
Total by construction (it never crashes). -/
def triggerFilter (st : FilterState) (src : Image) :
    FilterState × Option FilterError :=
  if isPow2 src.faceSize then
    ({ st with jobs := st.jobs ++ [src] }, none)
  else
    (st, some FilterError.invalidSourceDimensions)

/-- **C6.** For every source cubemap whose face edge length is not a power
of two, the filter pipeline fails with `InvalidSourceDimensions` reported
to the caller at filter-trigger time, schedules no filtering job, and
publishes no output textures (the state is returned unchanged); being a
total function, it never crashes on such input. -/
theorem triggerFilter_rejects_npot (st : FilterState) (src : Image)
    (h : ¬∃ k, src.faceSize = 2 ^ k) :
    (triggerFilter st src).2 = some FilterError.invalidSourceDimensions ∧
    (triggerFilter st src).1.jobs = st.jobs ∧
    (triggerFilter st src).1.published = st.published := by
  have hfalse : ¬isPow2 src.faceSize = true := fun hc => h ((isPow2_iff _).mp hc)
  unfold triggerFilter
  rw [if_neg hfalse]
  exact ⟨rfl, rfl, rfl⟩

/-- Witness for C6: a 100×100-per-face source is rejected and the state is
unchanged. -/
theorem triggerFilter_rejects_npot_witness :
    (triggerFilter { jobs := [], published := [] } { faceSize := 100 }).2 =
        some FilterError.invalidSourceDimensions ∧
    (triggerFilter { jobs := [], published := [] } { faceSize := 100 }).1.jobs = [] ∧
    (triggerFilter { jobs := [], published := [] }
        { faceSize := 100 }).1.published = [] :=
  triggerFilter_rejects_npot { jobs := [], published := [] } { faceSize := 100 }
    (fun hex => by
      have h100 : isPow2 100 = true := (isPow2_iff 100).mpr hex
      have : isPow2 100 = false := by decide
      rw [this] at h100
      exact Bool.false_ne_true h100)

/-- One ECS entity as observed by this core: whether it carries the
`LightProbe` marker and a `Transform`, and its optional light-data
components. -/
structure EntityRec where
  lightProbe : Bool
  transformPresent : Bool
  irradianceVolume : Option IrradianceVolume
  environmentMapLight : Option EnvironmentMapLight
  deriving DecidableEq, Repr

/-- Modelled from the spec (§6 registration API) together with the
required-component attributes in probe.rs: the registry operations.
Spawning an `IrradianceVolume` inserts the required `LightProbe`
(`#[require(LightProbe)]` on `IrradianceVolume`), which in turn inserts the
required `Transform` (`#[require(Transform, Visibility)]` on `LightProbe`),
so the construction API always supplies the probe volume together with the
irradiance volume. -/
inductive WorldOp where
  | spawnIrradianceVolume (iv : IrradianceVolume)
  | spawnEnvironmentMapLight (em : EnvironmentMapLight)
  | spawnLightProbe
  | despawn (i : Nat)
  deriving Repr

/-- Apply one registry operation to the world (entity list). -/
def applyOp (w : List EntityRec) : WorldOp → List EntityRec
  | .spawnIrradianceVolume iv =>
    w ++ [{ lightProbe := true, transformPresent := true,
            irradianceVolume := some iv, environmentMapLight := none }]
  | .spawnEnvironmentMapLight em =>
    w ++ [{ lightProbe := false, transformPresent := false,
            irradianceVolume := none, environmentMapLight := some em }]
  | .spawnLightProbe =>
    w ++ [{ lightProbe := true, transformPresent := true,
            irradianceVolume := none, environmentMapLight := none }]
  | .despawn i => w.eraseIdx i

/-- Run a sequence of registry operations from the empty world. -/
def runOps (ops : List WorldOp) : List EntityRec :=
  ops.foldl applyOp []

/-- The coexistence invariant: every entity carrying an irradiance volume
also carries the probe-volume components (`LightProbe` marker and
`Transform`). -/
def IrrHasVolume (w : List EntityRec) : Prop :=
  ∀ e ∈ w, e.irradianceVolume.isSome = true →
    e.lightProbe = true ∧ e.transformPresent = true

/-- Every single operation preserves the coexistence invariant. -/
theorem applyOp_preserves_irrHasVolume (w : List EntityRec) (op : WorldOp)
    (h : IrrHasVolume w) : IrrHasVolume (applyOp w op) := by
  cases op with
  | spawnIrradianceVolume iv =>
    intro e he hsome
    rcases List.mem_append.mp he with hw | hnew
    · exact h e hw hsome
    · rcases List.mem_singleton.mp hnew with rfl
      exact ⟨rfl, rfl⟩
  | spawnEnvironmentMapLight em =>
    intro e he hsome
    rcases List.mem_append.mp he with hw | hnew
    · exact h e hw hsome
    · rcases List.mem_singleton.mp hnew with rfl
      exact absurd hsome (by simp)
  | spawnLightProbe =>
    intro e he hsome
    rcases List.mem_append.mp he with hw | hnew
    · exact h e hw hsome
    · rcases List.mem_singleton.mp hnew with rfl
      exact absurd hsome (by simp)
  | despawn i =>
    intro e he hsome
    exact h e (List.eraseIdx_subset _ _ he) hsome

/-- **C9.** Every `IrradianceVolume` instance coexists with a probe volume
supplying its bounds: after any sequence of registry operations it is
impossible to have an entity with an irradiance volume but without the
`LightProbe` marker and its required `Transform` — the construction API
(`#[require(LightProbe)]` in probe.rs, `#[require(Transform, Visibility)]`
on `LightProbe`) inserts them together, and every operation of the
registry maintains the invariant. -/
theorem irradianceVolume_coexists_with_probeVolume (ops : List WorldOp) :
    ∀ e ∈ runOps ops, e.irradianceVolume.isSome = true →
      e.lightProbe = true ∧ e.transformPresent = true := by
  have hgen : ∀ (l : List WorldOp) (w : List EntityRec), IrrHasVolume w →
      IrrHasVolume (l.foldl applyOp w) := by
    intro l
    induction l with
    | nil => intro w hw; exact hw
    | cons op l ih =>
      intro w hw
      exact ih (applyOp w op) (applyOp_preserves_irrHasVolume w op hw)
  exact hgen ops [] (fun e he => absurd he (List.not_mem_nil e))

/-- Witness for C9: spawning a default irradiance volume produces an entity
that also carries the `LightProbe` marker and a `Transform`. -/
theorem irradianceVolume_coexists_with_probeVolume_witness :
    ({ lightProbe := true, transformPresent := true,
       irradianceVolume := some IrradianceVolume.defaultValue,
       environmentMapLight := none } : EntityRec).lightProbe = true ∧
    ({ lightProbe := true, transformPresent := true,
       irradianceVolume := some IrradianceVolume.defaultValue,
       environmentMapLight := none } : EntityRec).transformPresent = true :=
  irradianceVolume_coexists_with_probeVolume
    [WorldOp.spawnIrradianceVolume IrradianceVolume.defaultValue]
    { lightProbe := true, transformPresent := true,
      irradianceVolume := some IrradianceVolume.defaultValue,
      environmentMapLight := none }
    (List.mem_singleton.mpr rfl) rfl
